import Mathlib

/-!
Verification of the `age-github` wrapper (main.go).

The program rewrites a CLI argument vector, replacing `@handle` recipient
values by ssh keys fetched from GitHub (with a 1-hour disk cache), then
replaces its own process with the `age` tool.

Modelling conventions:
* A Go `string` / `[]byte` is a Lean `String` (a list of characters); Go byte
  indices into tokens coincide with character indices here because the only
  delimiters scanned for (`@`, `=`, `\n`, `\r`) are single-byte.
* `io.Reader` inputs to the key parser are modelled as the list of lines the
  `bufio.Scanner` would produce.
* The filesystem is a map from file names to `(modification time, content)`
  pairs; times are seconds, so `time.Hour` is `3600` and `t.Add(h).Before(now)`
  is `t + 3600 < now`.
* External collaborators from the Go standard library that perform I/O
  (`exec.LookPath`, the HTTP client, `crypto/sha1`) enter as explicit
  function/value parameters; the program text that consumes their results is
  translated verbatim.
-/

/-- Go `strings.HasPrefix s p`: `len(s) >= len(p) && s[:len(p)] == p`,
expressed on the character list. -/
def strStartsWith (s p : String) : Bool :=
  s.data.take p.data.length == p.data

/-- The Go slice `s[n:]` (drop the first `n` characters). -/
def strDrop (s : String) (n : Nat) : String :=
  ⟨s.data.drop n⟩

/-- The Go slice `s[:n]` / an `io.LimitReader` cap (keep the first `n`
characters). -/
def strTake (s : String) (n : Nat) : String :=
  ⟨s.data.take n⟩

/-- Go `isRecipientFlag` (main.go:150-156): exact match against the four
recipient-flag spellings. -/
def isRecipientFlag (s : String) : Bool :=
  s == "-r" || s == "--r" || s == "-recipient" || s == "--recipient"

/-- Membership in the regexp character class `[a-zA-Z]`. -/
def isAlphaChar (c : Char) : Bool :=
  ('a' ≤ c && c ≤ 'z') || ('A' ≤ c && c ≤ 'Z')

/-- Membership in the regexp character class `[a-zA-Z0-9_-]`. -/
def isHandleChar (c : Char) : Bool :=
  isAlphaChar c || ('0' ≤ c && c ≤ '9') || c == '_' || c == '-'

/-- Go `validGithubHandle` (main.go:146-148): `userNameRe.MatchString s` for
the anchored regexp `^[a-zA-Z][a-zA-Z0-9_-]+$` (main.go:158): one leading
letter followed by one or more class characters, nothing else. -/
def validGithubHandle (s : String) : Bool :=
  match s.data with
  | [] => false
  | c :: rest => isAlphaChar c && !rest.isEmpty && rest.all isHandleChar

/-- The scanning loop of `parseReaderToKeys` (main.go:131-139): each scanned
line is consumed, then the loop returns early once 10 keys are collected,
otherwise keeps lines with the `ssh-` prefix. -/
def parseKeysLoop : List String → List String → List String
  | [], out => out
  | l :: rest, out =>
    if out.length == 10 then out
    else if strStartsWith l "ssh-" then parseKeysLoop rest (out ++ [l])
    else parseKeysLoop rest out

/-- Go `parseReaderToKeys` (main.go:126-144), the reader modelled as the list
of lines its `bufio.Scanner` yields.  The scanner error branch cannot fire for
the in-memory readers the program uses, so the result is the plain list. -/
def parseReaderToKeys (lines : List String) : List String :=
  parseKeysLoop lines []

/-- Go `fmt.Errorf("no keys found for github user %q", u)` (main.go:65,82). -/
def noKeysMsg (u : String) : String :=
  "no keys found for github user \"" ++ u ++ "\""

/-- Go `fmt.Errorf("fetching keys for github user %q: %w", u, err)`
(main.go:62,79). -/
def fetchErrMsg (u e : String) : String :=
  "fetching keys for github user \"" ++ u ++ "\": " ++ e

/-- The Go condition `i > 0 && isRecipientFlag(args[i-1])` (main.go:58),
carried through the scan as the previous token (`none` at position 0, where no
previous token exists). -/
def prevIsFlag : Option String → Bool
  | some p => isRecipientFlag p
  | none => false

/-- The per-token loop of `run` (main.go:57-88), producing the rewritten
tokens that follow the prepended binary path.  Branch order is the source's:
first the two-token `flag @handle` form (main.go:58-69), then the
`flag=value` form found via the first `=` (`strings.IndexRune`,
main.go:70-86), else the token passes through (main.go:87). -/
def rewriteLoop (resolve : String → Except String (List String)) :
    Option String → List String → Except String (List String)
  | _, [] => .ok []
  | prev, v :: rest =>
    if strStartsWith v "@" && prevIsFlag prev then
      match resolve (strDrop v 1) with
      | .error e => .error (fetchErrMsg (strDrop v 1) e)
      | .ok [] => .error (noKeysMsg (strDrop v 1))
      | .ok (k :: _) => (rewriteLoop resolve (some v) rest).map (fun tail => k :: tail)
    else
      match v.data.findIdx? (fun c => c == '=') with
      | some j =>
        if decide (0 < j) && isRecipientFlag ⟨v.data.take j⟩ then
          if !strStartsWith ⟨v.data.drop (j + 1)⟩ "@" then
            (rewriteLoop resolve (some v) rest).map (fun tail => v :: tail)
          else
            match resolve (strDrop (⟨v.data.drop (j + 1)⟩ : String) 1) with
            | .error e => .error (fetchErrMsg (strDrop (⟨v.data.drop (j + 1)⟩ : String) 1) e)
            | .ok [] => .error (noKeysMsg (strDrop (⟨v.data.drop (j + 1)⟩ : String) 1))
            | .ok (k :: _) =>
              (rewriteLoop resolve (some v) rest).map (fun tail => "-r" :: k :: tail)
        else (rewriteLoop resolve (some v) rest).map (fun tail => v :: tail)
      | none => (rewriteLoop resolve (some v) rest).map (fun tail => v :: tail)

/-- The Go `usage` constant (main.go:188-197). -/
def usage : String :=
  "age-github is the age tool [1] wrapper which allows using github\nuser handles as -r flag recipients. This wrapper automatically fetches first ssh\nkey for a given user from github and calls age with -r flag holding ssh key value.\n\nGithub user handles should have @ prefix, i.e. to encrypt file for\nhttps://github.com/artyom user, you call it as\n\n\tage-github -r @artyom ...\n\n[1]: https://filippo.io/age"

/-- Go `run` (main.go:42-90).  `lookPath` is the result of
`exec.LookPath("age")`; `resolve` is `fetchGithubKeys` with its ambient
context and cache applied.  A successful run reaches `syscall.Exec(ageBin,
ageArgs, environ)`, modelled as returning the exec target and argument
vector (the call never returns in Go). -/
def run (lookPath : Except String String)
    (resolve : String → Except String (List String))
    (args : List String) : Except String (String × List String) :=
  if args.isEmpty then .error usage
  else
    match lookPath with
    | .error e => .error e
    | .ok ageBin => (rewriteLoop resolve none args).map (fun rest => (ageBin, ageBin :: rest))

/-- Observable outcome of the process: either it exited itself (with the text
written to stderr and the exit code), or it replaced itself with another
binary. -/
inductive ProcOutcome
  | exited (stderr : String) (code : Nat)
  | execed (bin : String) (argv : List String)
deriving DecidableEq

/-- Go `main` (main.go:35-40): on a `run` error, write the message plus a
newline to stderr and exit with status 1; otherwise the process has been
replaced. -/
def mainModel (lookPath : Except String String)
    (resolve : String → Except String (List String))
    (args : List String) : ProcOutcome :=
  match run lookPath resolve args with
  | .error e => .exited (e ++ "\n") 1
  | .ok (bin, argv) => .execed bin argv

/-- Go `filepath.Join dir f` for the non-empty, already-clean directory paths the
cache uses. -/
def pathJoin (dir f : String) : String :=
  dir ++ "/" ++ f

/-- Go `type cacheDir string` (main.go:160). -/
abbrev cacheDir := String

/-- Go `cacheDir.get` (main.go:162-175).  `hashHex` is
`fmt.Sprintf("%x", sha1.Sum [])byte(key))` — the standard library digest,
modelled as an explicit deterministic function; `fs` is the filesystem
(file name to mtime and content); `now` is `time.Now()`.  The caller only
tests the error against nil, so the error payload is `Unit`. -/
def cacheDir.get (hashHex : String → String) (fs : String → Option (Nat × String))
    (now : Nat) (c : cacheDir) (key : String) : Except Unit String :=
  if c = "" then .error ()
  else
    match fs (pathJoin c (hashHex key)) with
    | none => .error ()
    | some (mtime, content) =>
      if mtime + 3600 < now then .error ()
      else .ok content

/-- Go `cacheDir.put` (main.go:177-186) as a filesystem transformer: writing
sets the file's content and mtime; with an unset cache root it does nothing
and reports success.  `os.MkdirAll` failure is an OS-level fault outside the
model (the caller discards the error either way, main.go:122). -/
def cacheDir.put (hashHex : String → String) (fs : String → Option (Nat × String))
    (now : Nat) (c : cacheDir) (key data : String) : String → Option (Nat × String) :=
  if c = "" then fs
  else fun f => if f = pathJoin c (hashHex key) then some (now, data) else fs f

/-- The fields of an `http.Response` the program inspects. -/
structure HttpResp where
  statusCode : Nat
  status : String
  contentType : String
  body : String
deriving DecidableEq

/-- The list `l` with one trailing carriage return removed, as `dropCR` in
`bufio.ScanLines` does. -/
def dropCR (l : List Char) : List Char :=
  if l.getLast? = some '\r' then l.dropLast else l

/-- The lines a `bufio.Scanner` with `ScanLines` yields on `s`: split on
newline, drop a trailing `\r` from each line, and emit no final empty token
when the input ends with a newline (or is empty). -/
def scanLines (s : String) : List String :=
  let parts := s.data.splitOn '\n'
  let parts := if parts.getLast? = some [] then parts.dropLast else parts
  parts.map (fun l => ⟨dropCR l⟩)

/-- Go `fetchGithubKeys` (main.go:92-124).  The 10-second context timeout is
real time and is absorbed into `net` (a timed-out request surfaces as a
network error); `cget` is the cache lookup, `net` the HTTP GET of
`https://github.com/<username>.keys` with the User-Agent header set.  Returns
the result together with the list of cache writes performed (best-effort in
Go; the write stores the bytes teed out of the capped body). -/
def fetchGithubKeys (cget : String → Except Unit String)
    (net : String → Except String HttpResp) (username : String) :
    Except String (List String) × List (String × String) :=
  if !validGithubHandle username then (.error "not a valid github user name", [])
  else
    match cget username with
    | .ok data => (.ok (parseReaderToKeys (scanLines data)), [])
    | .error _ =>
      match net username with
      | .error e => (.error e, [])
      | .ok resp =>
        if resp.statusCode != 200 then
          (.error ("unexpected response code \"" ++ resp.status ++ "\""), [])
        else if !strStartsWith resp.contentType "text/plain" then
          (.error ("unexpected content type \"" ++ resp.contentType ++ "\""), [])
        else
          let body := strTake resp.body (1 <<< 18)
          (.ok (parseReaderToKeys (scanLines body)), [(username, body)])

/-- Spec-side grammar (from the spec's words): a string matches
`^[A-Za-z][A-Za-z0-9_-]+$` when it is one letter followed by one or more
characters from `[A-Za-z0-9_-]`, to be compared against `validGithubHandle`. -/
def MatchesHandleGrammar (s : String) : Prop :=
  ∃ c cs, s.data = c :: cs ∧
    (('a' ≤ c ∧ c ≤ 'z') ∨ ('A' ≤ c ∧ c ≤ 'Z')) ∧ cs ≠ [] ∧
    ∀ x ∈ cs, ('a' ≤ x ∧ x ≤ 'z') ∨ ('A' ≤ x ∧ x ≤ 'Z') ∨
      ('0' ≤ x ∧ x ≤ '9') ∨ x = '_' ∨ x = '-'

/-- The first key of a successful resolution (Go `keys[0]`), used to state
what a substitution puts in place of a placeholder. -/
def firstKey (resolve : String → Except String (List String)) (u : String) : String :=
  match resolve u with
  | .ok (k :: _) => k
  | _ => ""

/-- Spec-side in-place substitution map (from the claim's words): a token is
replaced exactly when it starts with `@`, has a preceding token, and that
preceding token is a recipient flag; the replacement is the first resolved
key; every other token is kept, one output token per input token.  `none`
encodes position 0, where no preceding token exists. -/
def specSubstA (resolve : String → Except String (List String)) :
    Option String → List String → List String
  | _, [] => []
  | prev, v :: rest =>
    (if strStartsWith v "@" && prevIsFlag prev then firstKey resolve (strDrop v 1) else v)
      :: specSubstA resolve (some v) rest

/-- The source's `flag=@value` trigger (main.go:70-76) as a predicate on one
token: the first `=` sits at index `j > 0`, the part before it is a recipient
flag, and the part after it starts with `@`. -/
def isEqPlaceholder (v : String) : Bool :=
  match v.data.findIdx? (fun c => c == '=') with
  | some j =>
    decide (0 < j) && isRecipientFlag ⟨v.data.take j⟩ &&
      strStartsWith ⟨v.data.drop (j + 1)⟩ "@"
  | none => false

/-- Whether the scan starting with previous token `prev` would ever trigger a
substitution: an `@` token right after a recipient flag, or a `flag=@value`
token, anywhere in the list. -/
def hasPlaceholder : Option String → List String → Bool
  | _, [] => false
  | prev, v :: rest =>
    (strStartsWith v "@" && prevIsFlag prev) || isEqPlaceholder v ||
      hasPlaceholder (some v) rest

/-- Concrete resolver for witnesses: two keys for every handle. -/
def resolveAAAW : String → Except String (List String) :=
  fun _ => .ok ["ssh-ed25519 AAA", "ssh-rsa BBB"]

/-- Concrete resolver for witnesses: one key for every handle. -/
def resolveCCCW : String → Except String (List String) :=
  fun _ => .ok ["ssh-ed25519 CCC"]

/-- Concrete resolver for witnesses: an empty key list for every handle. -/
def resolveEmptyW : String → Except String (List String) :=
  fun _ => .ok []

/-- Concrete resolver for witnesses: always a network failure. -/
def resolveFailW : String → Except String (List String) :=
  fun _ => .error "offline"

/-- Concrete cache lookup for witnesses. -/
def cgetW : String → Except Unit String := fun _ => .ok "ssh-x\n"

/-- Concrete network function for witnesses. -/
def netW : String → Except String HttpResp := fun _ => .error "network unreachable"

/-- Concrete hash function for witnesses (the model only needs determinism). -/
def hashHexW : String → String := fun s => s

/-- Concrete empty filesystem for witnesses. -/
def fsEmptyW : String → Option (Nat × String) := fun _ => none

/-- Concrete one-file filesystem for witnesses: `cachedir/alice` written at
time 100. -/
def fsOneW : String → Option (Nat × String) :=
  fun f => if f = "cachedir/alice" then some (100, "ssh-k\n") else none

/-- The scanning loop, started from any accumulator of at most 10 keys,
returns the accumulator extended by the matching lines, truncated to 10. -/
theorem parseKeysLoop_eq (lines : List String) :
    ∀ out : List String, out.length ≤ 10 →
      parseKeysLoop lines out =
        (out ++ lines.filter (fun l => strStartsWith l "ssh-")).take 10 := by
  induction lines with
  | nil =>
    intro out h
    simp [parseKeysLoop, List.take_of_length_le h]
  | cons l rest ih =>
    intro out h
    by_cases h10 : out.length = 10
    · rw [parseKeysLoop, if_pos (by simpa using h10)]
      rw [← h10, List.take_left]
    · have hlt : out.length < 10 := lt_of_le_of_ne h h10
      by_cases hp : strStartsWith l "ssh-" = true
      · rw [parseKeysLoop, if_neg (by simpa using h10), if_pos hp,
          ih (out ++ [l]) (by simp; omega), List.filter_cons, if_pos hp]
        simp
      · rw [parseKeysLoop, if_neg (by simpa using h10), if_neg hp,
          ih out h, List.filter_cons, if_neg hp]

/-- C3: the key parser returns exactly the lines with the `ssh-` prefix (as a
prefix of the whole line), in order, truncated to the first 10; when fewer
than 10 such lines exist it returns all of them, and no other line. -/
theorem claim_c3 (lines : List String) :
    parseReaderToKeys lines =
      (lines.filter (fun l => strStartsWith l "ssh-")).take 10
    ∧ ((lines.filter (fun l => strStartsWith l "ssh-")).length ≤ 10 →
        parseReaderToKeys lines = lines.filter (fun l => strStartsWith l "ssh-")) := by
  have h := parseKeysLoop_eq lines [] (by simp)
  refine ⟨by simpa [parseReaderToKeys] using h, fun hle => ?_⟩
  rw [parseReaderToKeys, h]
  simpa using List.take_of_length_le hle

/-- Witness for C3: the spec's 15-line scenario, lines 1,3,...,15 carrying
keys (8 matching lines, fewer than 10), returns exactly those 8 in order. -/
theorem claim_c3_witness :
    parseReaderToKeys
      ["ssh-1", "x1", "ssh-3", "x2", "ssh-5", "x3", "ssh-7", "x4", "ssh-9",
        "x5", "ssh-11", "x6", "ssh-13", "x7", "ssh-15"]
      = ["ssh-1", "ssh-3", "ssh-5", "ssh-7", "ssh-9", "ssh-11", "ssh-13", "ssh-15"] := by
  rw [(claim_c3 _).2 (by decide)]
  decide

/-- C5: for an invalid handle, key resolution fails immediately with the
validation error, performs no cache write, and its result is the same
whatever the cache lookup and the network would answer. -/
theorem claim_c5 (cget : String → Except Unit String)
    (net : String → Except String HttpResp) (u : String)
    (hu : validGithubHandle u = false) :
    fetchGithubKeys cget net u = (.error "not a valid github user name", []) := by
  simp [fetchGithubKeys, hu]

/-- Witness for C5: the handle `1abc` (leading digit) is rejected against a
cache that would hit and a network that would fail. -/
theorem claim_c5_witness :
    fetchGithubKeys cgetW netW "1abc" = (.error "not a valid github user name", []) :=
  claim_c5 cgetW netW "1abc" (by decide)

/-- C6: a `put` followed by a `get` of the same handle, with a set cache root
and within the one-hour staleness window, returns the stored payload
byte-for-byte; both sides name the file with the same hash of the handle. -/
theorem claim_c6 (hashHex : String → String) (fs : String → Option (Nat × String))
    (tput tget : Nat) (c : cacheDir) (key data : String)
    (hc : c ≠ "") (hfresh : ¬ tput + 3600 < tget) :
    cacheDir.get hashHex (cacheDir.put hashHex fs tput c key data) tget c key
      = .ok data := by
  simp [cacheDir.get, cacheDir.put, hc, hfresh]

/-- Witness for C6: a write at time 100 read back at time 3700 (exactly the
staleness boundary) yields the payload. -/
theorem claim_c6_witness :
    cacheDir.get hashHexW (cacheDir.put hashHexW fsEmptyW 100 "cachedir" "alice" "ssh-k\n")
      3700 "cachedir" "alice" = .ok "ssh-k\n" :=
  claim_c6 hashHexW fsEmptyW 100 3700 "cachedir" "alice" "ssh-k\n" (by decide) (by decide)

/-- C7: `get` reports not-found exactly when the cache root is unset, the
file is absent, or its modification time is more than one hour old; an entry
at most one hour old is returned with its content. -/
theorem claim_c7 (hashHex : String → String) (fs : String → Option (Nat × String))
    (now : Nat) (c : cacheDir) (key : String) :
    (cacheDir.get hashHex fs now c key = .error () ↔
      c = "" ∨ fs (pathJoin c (hashHex key)) = none ∨
        ∃ m d, fs (pathJoin c (hashHex key)) = some (m, d) ∧ m + 3600 < now)
    ∧ (∀ m d, c ≠ "" → fs (pathJoin c (hashHex key)) = some (m, d) →
        ¬ m + 3600 < now → cacheDir.get hashHex fs now c key = .ok d) := by
  constructor
  · by_cases hc : c = ""
    · simp [cacheDir.get, hc]
    · cases hfs : fs (pathJoin c (hashHex key)) with
      | none => simp [cacheDir.get, hc, hfs]
      | some md =>
        obtain ⟨m, d⟩ := md
        by_cases hst : m + 3600 < now
        · simp [cacheDir.get, hc, hfs, hst]
        · simp [cacheDir.get, hc, hfs, hst]
  · intro m d hc hfs hst
    simp [cacheDir.get, hc, hfs, hst]

/-- Witness for C7: both directions at concrete inputs — the entry written at
time 100 is stale at time 3701 (not-found despite intact content) and fresh
at time 3700 (returned). -/
theorem claim_c7_witness :
    cacheDir.get hashHexW fsOneW 3701 "cachedir" "alice" = .error ()
    ∧ cacheDir.get hashHexW fsOneW 3700 "cachedir" "alice" = .ok "ssh-k\n" :=
  ⟨(claim_c7 hashHexW fsOneW 3701 "cachedir" "alice").1.mpr
      (Or.inr (Or.inr ⟨100, "ssh-k\n", by decide, by decide⟩)),
    (claim_c7 hashHexW fsOneW 3700 "cachedir" "alice").2 100 "ssh-k\n"
      (by decide) (by decide) (by decide)⟩

/-- C10: with an empty argument list, `run` returns the usage text as an
error — independently of the binary lookup result and of the resolver, so no
binary lookup, network access, or exec is consulted — and the process writes
the usage text plus a newline to stderr and exits with status 1. -/
theorem claim_c10 (lookPath : Except String String)
    (resolve : String → Except String (List String)) :
    run lookPath resolve [] = .error usage
    ∧ mainModel lookPath resolve [] = .exited (usage ++ "\n") 1 :=
  ⟨rfl, rfl⟩

/-- Function `isAlphaChar` decides membership in `[a-zA-Z]`. -/
theorem isAlphaChar_iff (c : Char) :
    isAlphaChar c = true ↔ (('a' ≤ c ∧ c ≤ 'z') ∨ ('A' ≤ c ∧ c ≤ 'Z')) := by
  simp [isAlphaChar]

/-- Function `isHandleChar` decides membership in `[a-zA-Z0-9_-]`. -/
theorem isHandleChar_iff (c : Char) :
    isHandleChar c = true ↔ (('a' ≤ c ∧ c ≤ 'z') ∨ ('A' ≤ c ∧ c ≤ 'Z') ∨
      ('0' ≤ c ∧ c ≤ '9') ∨ c = '_' ∨ c = '-') := by
  simp [isHandleChar, isAlphaChar]
  tauto

/-- C4: handle validation accepts a string exactly when it matches the
grammar `^[A-Za-z][A-Za-z0-9_-]+$` — so the empty string, strings with a
leading digit or symbol, and strings with a character outside the class are
all rejected, and every grammar match is accepted. -/
theorem claim_c4 (s : String) : validGithubHandle s = true ↔ MatchesHandleGrammar s := by
  unfold validGithubHandle MatchesHandleGrammar
  cases hd : s.data with
  | nil => simp
  | cons c cs =>
    simp only [Bool.and_eq_true, Bool.not_eq_true', List.isEmpty_eq_false,
      List.all_eq_true, List.cons.injEq, isAlphaChar_iff, isHandleChar_iff]
    constructor
    · rintro ⟨⟨h1, h2⟩, h3⟩
      exact ⟨c, cs, ⟨rfl, rfl⟩, h1, h2, h3⟩
    · rintro ⟨c', cs', ⟨rfl, rfl⟩, h1, h2, h3⟩
      exact ⟨⟨h1, h2⟩, h3⟩

/-- Witness for C4: `alice` matches the grammar and is accepted. -/
theorem claim_c4_witness : validGithubHandle "alice" = true :=
  (claim_c4 "alice").mpr
    ⟨'a', ['l', 'i', 'c', 'e'], rfl, by decide, by decide, by decide⟩

/-- A scan that meets no placeholder token (no `@` token after a recipient
flag, no `flag=@value` token) reproduces its input exactly. -/
theorem rewriteLoop_frame (resolve : String → Except String (List String))
    (args : List String) :
    ∀ prev, hasPlaceholder prev args = false →
      rewriteLoop resolve prev args = .ok args := by
  induction args with
  | nil => intro prev _; rfl
  | cons v rest ih =>
    intro prev h
    rw [hasPlaceholder] at h
    simp only [Bool.or_eq_false_iff] at h
    obtain ⟨⟨h1, h2⟩, h3⟩ := h
    simp only [rewriteLoop]
    rw [if_neg (by simp [h1])]
    cases hj : v.data.findIdx? (fun c => c == '=') with
    | none => simp [ih (some v) h3, Except.map]
    | some j =>
      unfold isEqPlaceholder at h2
      rw [hj] at h2
      cases hfl : (decide (0 < j) && isRecipientFlag ⟨v.data.take j⟩) with
      | false => simp [hfl, ih (some v) h3, Except.map]
      | true =>
        simp only [hfl, Bool.true_and] at h2
        simp [hfl, h2, ih (some v) h3, Except.map]

/-- C9: frame property — a non-empty argument vector with no `@`-prefixed
recipient value is passed to the tool unchanged, with exactly the resolved
binary path prepended as the first token. -/
theorem claim_c9 (bin : String) (resolve : String → Except String (List String))
    (args : List String) (hne : args ≠ [])
    (hnp : hasPlaceholder none args = false) :
    run (.ok bin) resolve args = .ok (bin, bin :: args) := by
  rw [run, if_neg (by simp [hne])]
  simp [rewriteLoop_frame resolve args none hnp, Except.map]

/-- Witness for C9: an argv with a recipient flag whose value is a plain key
file, plus unrelated tokens, is only prepended with the binary path. -/
theorem claim_c9_witness :
    run (.ok "/usr/bin/age") resolveFailW ["-r", "pubkey.txt", "-o", "out.age", "file.txt"]
      = .ok ("/usr/bin/age",
          ["/usr/bin/age", "-r", "pubkey.txt", "-o", "out.age", "file.txt"]) :=
  claim_c9 "/usr/bin/age" resolveFailW _ (by decide) (by decide)

/-- The substitution map emits exactly one token per input token. -/
theorem specSubstA_length (resolve : String → Except String (List String)) :
    ∀ (args : List String) (prev : Option String),
      (specSubstA resolve prev args).length = args.length := by
  intro args
  induction args with
  | nil => intro prev; rfl
  | cons v rest ih => intro prev; simp [specSubstA, ih (some v)]

/-- The substitution map never rewrites the token at position 0, where no
preceding token exists. -/
theorem specSubstA_head (resolve : String → Except String (List String))
    (args : List String) :
    (specSubstA resolve none args).head? = args.head? := by
  cases args with
  | nil => rfl
  | cons v rest => simp [specSubstA, prevIsFlag]

/-- With a resolver that succeeds with a non-empty key list on every handle,
the loop run over a vector free of `flag=@value` tokens succeeds and returns
exactly the in-place substitution map, from any previous-token state. -/
theorem rewriteLoop_subst (resolve : String → Except String (List String))
    (hres : ∀ u, ∃ k ks, resolve u = .ok (k :: ks)) :
    ∀ (args : List String), (∀ v ∈ args, isEqPlaceholder v = false) →
      ∀ prev, rewriteLoop resolve prev args = .ok (specSubstA resolve prev args) := by
  intro args
  induction args with
  | nil => intro _ prev; rfl
  | cons v rest ih =>
    intro hq prev
    have hv : isEqPlaceholder v = false := hq v (List.mem_cons_self _ _)
    have hrest : ∀ w ∈ rest, isEqPlaceholder w = false :=
      fun w hw => hq w (List.mem_cons_of_mem _ hw)
    cases hcond : (strStartsWith v "@" && prevIsFlag prev) with
    | true =>
      obtain ⟨k, ks, hk⟩ := hres (strDrop v 1)
      simp [rewriteLoop, specSubstA, hcond, hk, ih hrest (some v), firstKey, Except.map]
    | false =>
      cases hj : v.data.findIdx? (fun c => c == '=') with
      | none =>
        simp [rewriteLoop, specSubstA, hcond, hj, ih hrest (some v), Except.map]
      | some j =>
        unfold isEqPlaceholder at hv
        rw [hj] at hv
        cases hfl : (decide (0 < j) && isRecipientFlag ⟨v.data.take j⟩) with
        | false =>
          simp [rewriteLoop, specSubstA, hcond, hj, hfl, ih hrest (some v), Except.map]
        | true =>
          simp only [hfl, Bool.true_and] at hv
          simp [rewriteLoop, specSubstA, hcond, hj, hfl, hv, ih hrest (some v), Except.map]

/-- C1: on a vector with no `flag=@value` token and a resolver that yields a
non-empty key list, the rewriter succeeds and replaces a token in place
exactly when it starts with `@` and its immediately preceding token is a
recipient flag (so never at position 0), substituting the first resolved key;
token count is preserved and the leading token is untouched. -/
theorem claim_c1 (resolve : String → Except String (List String)) (args : List String)
    (hres : ∀ u, ∃ k ks, resolve u = .ok (k :: ks))
    (hq : ∀ v ∈ args, isEqPlaceholder v = false) :
    rewriteLoop resolve none args = .ok (specSubstA resolve none args)
    ∧ (specSubstA resolve none args).length = args.length
    ∧ (specSubstA resolve none args).head? = args.head? :=
  ⟨rewriteLoop_subst resolve hres args hq none,
    specSubstA_length resolve args none, specSubstA_head resolve args⟩

/-- Witness for C1: the spec's scenario `-r @alice file.txt` with a resolver
returning two keys substitutes only the first key, in place. -/
theorem claim_c1_witness :
    rewriteLoop resolveAAAW none ["-r", "@alice", "file.txt"]
      = .ok ["-r", "ssh-ed25519 AAA", "file.txt"] := by
  have h := (claim_c1 resolveAAAW ["-r", "@alice", "file.txt"]
    (fun u => ⟨"ssh-ed25519 AAA", ["ssh-rsa BBB"], rfl⟩) (by decide)).1
  rw [h]
  rfl

/-- The four recipient-flag spellings, explicitly. -/
theorem isRecipientFlag_cases {f : String} (h : isRecipientFlag f = true) :
    f = "-r" ∨ f = "--r" ∨ f = "-recipient" ∨ f = "--recipient" := by
  have h' := h
  simp [isRecipientFlag] at h'
  tauto

/-- A token whose first `j > 0` characters spell a recipient flag starts with
`-`, hence not with `@`: the two substitution branches are mutually
exclusive. -/
theorem flagEqTokenNotAt {v : String} {j : Nat} (hj0 : 0 < j)
    (hfl : isRecipientFlag ⟨v.data.take j⟩ = true) :
    strStartsWith v "@" = false := by
  have hdash : ∃ t, v.data.take j = '-' :: t := by
    rcases isRecipientFlag_cases hfl with h | h | h | h <;>
      exact ⟨_, congrArg String.data h⟩
  obtain ⟨t, ht⟩ := hdash
  cases hv : v.data with
  | nil => rw [hv] at ht; simp at ht
  | cons c cs =>
    rw [hv] at ht
    obtain ⟨j', rfl⟩ : ∃ j', j = j' + 1 := ⟨j - 1, by omega⟩
    rw [List.take_succ_cons] at ht
    have hc : c = '-' := (List.cons.injEq c _ '-' t ▸ ht :
      c = '-' ∧ List.take j' cs = t).1
    unfold strStartsWith
    rw [hv, hc]
    rfl

/-- One-step characterization of the loop on a `flag=value` token: the token
never starts with `@`, so only the embedded-`=` branch applies; a non-`@`
value passes the token through, an `@` value resolves the handle behind
it. -/
theorem rewriteLoop_eqForm (resolve : String → Except String (List String))
    (prev : Option String) (v : String) (rest : List String) (j : Nat)
    (hj : v.data.findIdx? (fun c => c == '=') = some j) (hj0 : 0 < j)
    (hflag : isRecipientFlag ⟨v.data.take j⟩ = true) :
    rewriteLoop resolve prev (v :: rest)
      = if strStartsWith ⟨v.data.drop (j + 1)⟩ "@" then
          match resolve (strDrop (⟨v.data.drop (j + 1)⟩ : String) 1) with
          | .error e => .error (fetchErrMsg (strDrop (⟨v.data.drop (j + 1)⟩ : String) 1) e)
          | .ok [] => .error (noKeysMsg (strDrop (⟨v.data.drop (j + 1)⟩ : String) 1))
          | .ok (k :: _) =>
            (rewriteLoop resolve (some v) rest).map (fun tail => "-r" :: k :: tail)
        else (rewriteLoop resolve (some v) rest).map (fun tail => v :: tail) := by
  have hat : strStartsWith v "@" = false := flagEqTokenNotAt hj0 hflag
  cases hv : strStartsWith ⟨v.data.drop (j + 1)⟩ "@" with
  | false => simp [rewriteLoop, hat, hj, hj0, hflag, hv]
  | true => simp [rewriteLoop, hat, hj, hj0, hflag, hv]

/-- C2: a token `F=V` whose first `=` sits at index `j > 0` with `F` a
recipient flag spelling is passed through unchanged when `V` does not start
with `@`; when `V` starts with `@` it is replaced by the two tokens `-r`
(whatever spelling `F` was) and the first resolved key, growing the output by
one token. -/
theorem claim_c2 (resolve : String → Except String (List String)) (prev : Option String)
    (v : String) (rest : List String) (j : Nat)
    (hj : v.data.findIdx? (fun c => c == '=') = some j) (hj0 : 0 < j)
    (hflag : isRecipientFlag ⟨v.data.take j⟩ = true) :
    (strStartsWith ⟨v.data.drop (j + 1)⟩ "@" = false →
      rewriteLoop resolve prev (v :: rest)
        = (rewriteLoop resolve (some v) rest).map (fun tail => v :: tail))
    ∧ (∀ k ks, strStartsWith ⟨v.data.drop (j + 1)⟩ "@" = true →
        resolve (strDrop (⟨v.data.drop (j + 1)⟩ : String) 1) = .ok (k :: ks) →
        rewriteLoop resolve prev (v :: rest)
          = (rewriteLoop resolve (some v) rest).map (fun tail => "-r" :: k :: tail)) := by
  rw [rewriteLoop_eqForm resolve prev v rest j hj hj0 hflag]
  constructor
  · intro hnot
    rw [if_neg (by simp [hnot])]
  · intro k ks hyes hres
    rw [if_pos hyes, hres]

/-- Witness for C2: the spec's scenario `--recipient=@bob` with one resolved
key becomes the two tokens `-r` and the key. -/
theorem claim_c2_witness :
    rewriteLoop resolveCCCW none ["--recipient=@bob", "f"]
      = .ok ["-r", "ssh-ed25519 CCC", "f"] := by
  have h := (claim_c2 resolveCCCW none "--recipient=@bob" ["f"] 11
    rfl (by decide) rfl).2 "ssh-ed25519 CCC" [] rfl rfl
  rw [h]
  rfl

/-- C8: a handle whose resolution yields the empty key list aborts the whole
rewrite with the error `no keys found for github user %q` naming the handle —
in the two-token flag form after any recipient flag, in the `flag=value` form
for any flag spelling, and at the `run` level the result is an error, so the
external tool is never executed. -/
theorem claim_c8 (resolve : String → Except String (List String)) (u : String)
    (hu : resolve u = .ok []) (p : String) (hp : isRecipientFlag p = true)
    (f : String) (hf : isRecipientFlag f = true)
    (prev : Option String) (rest : List String) (bin : String) :
    rewriteLoop resolve (some p) (("@" ++ u) :: rest) = .error (noKeysMsg u)
    ∧ rewriteLoop resolve prev ((f ++ "=@" ++ u) :: rest) = .error (noKeysMsg u)
    ∧ run (.ok bin) resolve ("-r" :: ("@" ++ u) :: rest) = .error (noKeysMsg u) := by
  obtain ⟨du⟩ := u
  have hstart : strStartsWith ("@" ++ (⟨du⟩ : String)) "@" = true := rfl
  have hdrop : strDrop ("@" ++ (⟨du⟩ : String)) 1 = ⟨du⟩ := rfl
  have key1 : ∀ q, isRecipientFlag q = true →
      rewriteLoop resolve (some q) (("@" ++ (⟨du⟩ : String)) :: rest)
        = .error (noKeysMsg ⟨du⟩) := by
    intro q hq
    simp [rewriteLoop, hstart, prevIsFlag, hq, hdrop, hu]
  refine ⟨key1 p hp, ?_, ?_⟩
  · rcases isRecipientFlag_cases hf with h | h | h | h <;> subst h
    · rw [rewriteLoop_eqForm resolve prev ("-r" ++ "=@" ++ ⟨du⟩) rest 2
          rfl (by decide) rfl,
        if_pos (show strStartsWith
          ⟨("-r" ++ "=@" ++ (⟨du⟩ : String)).data.drop (2 + 1)⟩ "@" = true from rfl),
        show strDrop (⟨("-r" ++ "=@" ++ (⟨du⟩ : String)).data.drop (2 + 1)⟩ : String) 1
          = ⟨du⟩ from rfl, hu]
    · rw [rewriteLoop_eqForm resolve prev ("--r" ++ "=@" ++ ⟨du⟩) rest 3
          rfl (by decide) rfl,
        if_pos (show strStartsWith
          ⟨("--r" ++ "=@" ++ (⟨du⟩ : String)).data.drop (3 + 1)⟩ "@" = true from rfl),
        show strDrop (⟨("--r" ++ "=@" ++ (⟨du⟩ : String)).data.drop (3 + 1)⟩ : String) 1
          = ⟨du⟩ from rfl, hu]
    · rw [rewriteLoop_eqForm resolve prev ("-recipient" ++ "=@" ++ ⟨du⟩) rest 10
          rfl (by decide) rfl,
        if_pos (show strStartsWith
          ⟨("-recipient" ++ "=@" ++ (⟨du⟩ : String)).data.drop (10 + 1)⟩ "@" = true from rfl),
        show strDrop (⟨("-recipient" ++ "=@" ++ (⟨du⟩ : String)).data.drop (10 + 1)⟩ : String) 1
          = ⟨du⟩ from rfl, hu]
    · rw [rewriteLoop_eqForm resolve prev ("--recipient" ++ "=@" ++ ⟨du⟩) rest 11
          rfl (by decide) rfl,
        if_pos (show strStartsWith
          ⟨("--recipient" ++ "=@" ++ (⟨du⟩ : String)).data.drop (11 + 1)⟩ "@" = true from rfl),
        show strDrop (⟨("--recipient" ++ "=@" ++ (⟨du⟩ : String)).data.drop (11 + 1)⟩ : String) 1
          = ⟨du⟩ from rfl, hu]
  · rw [show run (.ok bin) resolve ("-r" :: ("@" ++ (⟨du⟩ : String)) :: rest)
        = (rewriteLoop resolve none ("-r" :: ("@" ++ (⟨du⟩ : String)) :: rest)).map
            (fun r => (bin, bin :: r)) from rfl,
      show rewriteLoop resolve none ("-r" :: ("@" ++ (⟨du⟩ : String)) :: rest)
        = (rewriteLoop resolve (some "-r") (("@" ++ (⟨du⟩ : String)) :: rest)).map
            (fun tail => "-r" :: tail) from rfl,
      key1 "-r" (by decide)]
    rfl

/-- Witness for C8: the empty-list resolver on `-r @dave`, on
`--recipient=@dave`, and at run level, each failing with the message naming
`dave`. -/
theorem claim_c8_witness :
    rewriteLoop resolveEmptyW (some "-r") ["@dave", "f"] = .error (noKeysMsg "dave")
    ∧ rewriteLoop resolveEmptyW none ["--recipient=@dave", "f"]
        = .error (noKeysMsg "dave")
    ∧ run (.ok "/bin/age") resolveEmptyW ["-r", "@dave", "f"]
        = .error (noKeysMsg "dave") :=
  claim_c8 resolveEmptyW "dave" rfl "-r" (by decide) "--recipient" (by decide)
    none ["f"] "/bin/age"
